import Mathlib

/-!
Shallow embedding of `optuna/integration/comet.py` (the `CometCallback`
class) and proofs about it.

The callback is pure logic followed by a straight-line sequence of calls
against a freshly created Comet experiment object.  We embed the Python
values that matter for the callback as an inductive type `PyVal`, embed
`__init__` as a fallible constructor and `__call__` as a function that
returns the (unchanged) callback state, the ordered list of external API
calls it issues, and its result (`()` for Python `None`, or a raised
exception).  Objective values and timestamps are carried opaquely as
rationals: the callback performs no arithmetic on them.
-/

set_option linter.unusedVariables false

namespace CometSpec

/-- Embedded Python scalar values: the hashable values that can appear
as an element of a metric-name sequence or as a dict key. -/
inductive PyAtom where
  | aStr (s : String)
  | aInt (n : Int)
  deriving DecidableEq

/-- Python `isinstance(x, str)` on a scalar. -/
def PyAtom.isStr : PyAtom → Bool
  | .aStr _ => true
  | .aInt _ => false

/-- Embedded Python runtime values, covering the shapes the callback can
receive as `metric_name`: strings, integers, and lists of scalars. -/
inductive PyVal where
  | pyStr (s : String)
  | pyInt (n : Int)
  | pyList (xs : List PyAtom)
  deriving DecidableEq

/-- Python `isinstance(x, Sequence)` (with `Sequence` from `typing` /
`collections.abc`): `str` and `list` are registered as `Sequence`,
`int` is not. -/
def PyVal.isSequence : PyVal → Bool
  | .pyStr _ => true
  | .pyList _ => true
  | .pyInt _ => false

/-- The classification used by the specification text: the value is a
string, or a sequence of strings. -/
def PyVal.isStringOrSeqOfStrings : PyVal → Bool
  | .pyStr _ => true
  | .pyList xs => xs.all PyAtom.isStr
  | .pyInt _ => false

/-- The name of the Python type of a value, used in the `TypeError`
message built by `__init__`. -/
def PyVal.pyTypeName : PyVal → String
  | .pyStr _ => "str"
  | .pyInt _ => "int"
  | .pyList _ => "list"

/-- Exceptions the embedded code can raise. -/
inductive PyError where
  | typeError (msg : String)
  | valueError (msg : String)
  deriving DecidableEq

/-- Modelled from the spec: optuna's study-direction enum (defined
outside this file's source; the spec describes `.directions` as an
ordered sequence of enum-like direction values whose `.name` attribute
is read). -/
inductive StudyDirection where
  | minimize
  | maximize
  deriving DecidableEq

/-- The `.name` attribute of the direction enum member. -/
def StudyDirection.name : StudyDirection → String
  | .minimize => "MINIMIZE"
  | .maximize => "MAXIMIZE"

/-- Modelled from the spec: the study object consumed by the callback,
exposing `.study_name` and `.directions`. -/
structure Study where
  study_name : String
  directions : List StudyDirection
  deriving DecidableEq

/-- A Python `datetime` as consumed here: the only operation the source
performs on it is `.timestamp()`, yielding epoch seconds. -/
structure Datetime where
  timestamp : ℚ
  deriving DecidableEq

/-- Modelled from the spec: the completed-trial object consumed by the
callback, exposing `.params`, `.values`, `.number` and the two
timestamps.  A Python dict preserving insertion order is represented as
an association list. -/
structure FrozenTrial where
  params : List (String × PyVal)
  values : List ℚ
  number : Nat
  datetime_start : Datetime
  datetime_complete : Datetime
  deriving DecidableEq

/-- The state stored by `CometCallback.__init__`: `self._metric_name`
and `self._comet_kwargs`. -/
structure CometCallback where
  metric_name : PyVal
  comet_kwargs : List (String × PyVal)
  deriving DecidableEq

/-- Python `comet_kwargs or {}`: `None` (and the falsy empty dict) is
replaced by the empty dict. -/
def orEmptyDict : Option (List (String × PyVal)) → List (String × PyVal)
  | none => []
  | some d => d

/-- `CometCallback.__init__(metric_name, comet_kwargs)`: raises
`TypeError` when `metric_name` is not a `Sequence`, otherwise stores
`metric_name` and `comet_kwargs or {}`. -/
def CometCallback.init (metric_name : PyVal)
    (comet_kwargs : Option (List (String × PyVal))) :
    Except PyError CometCallback :=
  if ¬ metric_name.isSequence then
    .error (.typeError
      ("Expected metric_name to be string or sequence of strings, got "
        ++ metric_name.pyTypeName ++ "."))
  else
    .ok { metric_name := metric_name, comet_kwargs := orEmptyDict comet_kwargs }

/-- The `ValueError` message raised on a count mismatch, with the two
counts formatted in, exactly as in the source format string. -/
def mismatchMsg (numValues numNames : Nat) : String :=
  "Running multi-objective optimization with " ++ toString numValues
    ++ " objective values, but " ++ toString numNames
    ++ " names specified. Match objective values and names, or use default broadcasting."

/-- The name-resolution part of `CometCallback.__call__`: the branch on
`isinstance(self._metric_name, str)`, the broadcast with numeric
suffixes, and the length check on an explicit sequence.  `len()` of an
`int` raises `TypeError` in Python (unreachable after `__init__`). -/
def resolveNames (metric_name : PyVal) (values : List ℚ) :
    Except PyError (List PyAtom) :=
  match metric_name with
  | .pyStr s =>
      if values.length > 1 then
        .ok ((List.range values.length).map fun i =>
          .aStr (s ++ "_" ++ toString i))
      else
        .ok [.aStr s]
  | .pyList xs =>
      if xs.length ≠ values.length then
        .error (.valueError (mismatchMsg values.length xs.length))
      else
        .ok xs
  | .pyInt _ =>
      .error (.typeError "object of type int has no len()")

/-- One step of building a Python dict: assigning to a key overwrites in
place when the key is already present, otherwise appends the pair. -/
def dictUpdate (d : List (PyAtom × ℚ)) (k : PyAtom) (v : ℚ) :
    List (PyAtom × ℚ) :=
  if k ∈ d.map Prod.fst then
    d.map fun p => if p.1 = k then (k, v) else p
  else
    d ++ [(k, v)]

/-- The dict comprehension `{name: value for name, value in pairs}`:
insertion-ordered, later occurrences of a key overwrite earlier ones. -/
def dictOfPairs (ps : List (PyAtom × ℚ)) : List (PyAtom × ℚ) :=
  ps.foldl (fun d p => dictUpdate d p.1 p.2) []

/-- The external API calls `__call__` can issue, in the embedded order:
construction of the experiment (`comet_ml.APIExperiment(**kwargs)`,
issued by `_initialize_experiment`) followed by the logging calls
against it. -/
inductive ApiCall where
  | apiExperiment (kwargs : List (String × PyVal))
  | log_parameters (params : List (String × PyVal))
  | log_metrics (metrics : List (PyAtom × ℚ))
  | add_tags (tags : List String)
  | log_other (key : String) (value : Nat)
  | set_start_time (t : ℚ)
  | set_end_time (t : ℚ)
  deriving DecidableEq

/-- `CometCallback.__call__(study, trial)`: resolves the metric names
(possibly raising), builds the metrics dict and the (unused) attributes
dict, then creates a fresh experiment and issues the logging calls in
source order.  The method never assigns to `self`, so the returned
callback state is the input state; the third component is the Python
return value (`None`) or the exception raised. -/
def CometCallback.callMethod (cb : CometCallback) (study : Study)
    (trial : FrozenTrial) :
    CometCallback × List ApiCall × Except PyError Unit :=
  match resolveNames cb.metric_name trial.values with
  | .error e => (cb, [], .error e)
  | .ok names =>
      let metrics := dictOfPairs (names.zip trial.values)
      let attributes : List (String × List String) :=
        [("direction", study.directions.map StudyDirection.name)]
      (cb,
        [.apiExperiment cb.comet_kwargs,
         .log_parameters trial.params,
         .log_metrics metrics,
         .add_tags [study.study_name],
         .log_other "trial_step" trial.number,
         .set_start_time trial.datetime_start.timestamp,
         .set_end_time trial.datetime_complete.timestamp],
        .ok ())

/-- The arguments of the `log_metrics` calls occurring in a call trace. -/
def loggedMetrics (calls : List ApiCall) : List (List (PyAtom × ℚ)) :=
  calls.filterMap fun c =>
    match c with
    | .log_metrics m => some m
    | _ => none

/-- Whether a call is a construction of a new experiment. -/
def ApiCall.isApiExperiment : ApiCall → Bool
  | .apiExperiment _ => true
  | _ => false

/-! ### Injectivity of the numeral printer `Nat.repr`

Needed to show the broadcast metric names `base_0`, `base_1`, … are
pairwise distinct. -/

lemma toDigitsCore_append (b f : Nat) :
    ∀ (n : Nat) (acc : List Char),
      Nat.toDigitsCore b f n acc = Nat.toDigitsCore b f n [] ++ acc := by
  induction f with
  | zero => intro n acc; simp [Nat.toDigitsCore]
  | succ f ih =>
    intro n acc
    simp only [Nat.toDigitsCore]
    by_cases h : n / b = 0
    · simp [h]
    · simp only [h, if_false]
      rw [ih (n / b) (Nat.digitChar (n % b) :: acc),
        ih (n / b) [Nat.digitChar (n % b)]]
      simp

lemma toDigitsCore_eq_digits (n : Nat) :
    0 < n → ∀ f, n ≤ f →
      Nat.toDigitsCore 10 f n [] =
        ((Nat.digits 10 n).map Nat.digitChar).reverse := by
  induction n using Nat.strong_induction_on with
  | _ n ih =>
    intro hn f hf
    obtain ⟨g, rfl⟩ : ∃ g, f = g + 1 := ⟨f - 1, by omega⟩
    simp only [Nat.toDigitsCore]
    by_cases hq : n / 10 = 0
    · have hlt : n < 10 := (Nat.div_eq_zero_iff (by norm_num)).mp hq
      rw [Nat.digits_def' (by norm_num : (1:Nat) < 10) hn, hq]
      simp [Nat.mod_eq_of_lt hlt]
    · have hdiv_lt : n / 10 < n := Nat.div_lt_self hn (by norm_num)
      have hdiv_pos : 0 < n / 10 := Nat.pos_of_ne_zero hq
      have hdivf : n / 10 ≤ g := by omega
      simp only [hq, if_false]
      rw [toDigitsCore_append, ih (n / 10) hdiv_lt hdiv_pos g hdivf,
        Nat.digits_def' (by norm_num : (1:Nat) < 10) hn]
      simp

lemma repr_eq_digits (n : Nat) (hn : 0 < n) :
    Nat.repr n = (((Nat.digits 10 n).map Nat.digitChar).reverse).asString := by
  rw [Nat.repr, Nat.toDigits, toDigitsCore_eq_digits n hn (n + 1) (by omega)]

lemma digitChar_inj_lt :
    ∀ a < 10, ∀ b < 10, Nat.digitChar a = Nat.digitChar b → a = b := by
  decide

lemma map_digitChar_inj :
    ∀ (l1 l2 : List Nat), (∀ x ∈ l1, x < 10) → (∀ x ∈ l2, x < 10) →
      l1.map Nat.digitChar = l2.map Nat.digitChar → l1 = l2 := by
  intro l1
  induction l1 with
  | nil => intro l2 _ _ h; cases l2 <;> simp_all
  | cons x l1 ih =>
    intro l2 h1 h2 h
    cases l2 with
    | nil => simp at h
    | cons y l2 =>
      simp only [List.map_cons, List.cons.injEq] at h
      have hx : x < 10 := h1 x (by simp)
      have hy : y < 10 := h2 y (by simp)
      have hxy : x = y := digitChar_inj_lt x hx y hy h.1
      have : l1 = l2 :=
        ih l2 (fun z hz => h1 z (by simp [hz])) (fun z hz => h2 z (by simp [hz])) h.2
      rw [hxy, this]

lemma natRepr_injective : Function.Injective Nat.repr := by
  intro m n h
  rcases Nat.eq_zero_or_pos m with hm | hm <;>
    rcases Nat.eq_zero_or_pos n with hn | hn
  · omega
  · subst hm
    rw [repr_eq_digits n hn] at h
    have h0 : Nat.repr 0 = (['0'] : List Char).asString := rfl
    rw [h0] at h
    have := List.asString_inj.mp h
    have hmap : (Nat.digits 10 n).map Nat.digitChar = ['0'] := by
      have := congrArg List.reverse this
      simpa using this.symm
    have hdig : Nat.digits 10 n = [0] := by
      have h10 : Nat.digitChar 0 = '0' := rfl
      refine map_digitChar_inj _ [0] ?_ ?_ ?_
      · intro x hx; exact Nat.digits_lt_base (by norm_num) hx
      · intro x hx; simp at hx; omega
      · simpa [h10] using hmap
    have := Nat.ofDigits_digits 10 n
    rw [hdig] at this
    simp [Nat.ofDigits] at this
    omega
  · subst hn
    rw [repr_eq_digits m hm] at h
    have h0 : Nat.repr 0 = (['0'] : List Char).asString := rfl
    rw [h0] at h
    have := List.asString_inj.mp h
    have hmap : (Nat.digits 10 m).map Nat.digitChar = ['0'] := by
      have := congrArg List.reverse this
      simpa using this
    have hdig : Nat.digits 10 m = [0] := by
      have h10 : Nat.digitChar 0 = '0' := rfl
      refine map_digitChar_inj _ [0] ?_ ?_ ?_
      · intro x hx; exact Nat.digits_lt_base (by norm_num) hx
      · intro x hx; simp at hx; omega
      · simpa [h10] using hmap
    have := Nat.ofDigits_digits 10 m
    rw [hdig] at this
    simp [Nat.ofDigits] at this
    omega
  · rw [repr_eq_digits m hm, repr_eq_digits n hn] at h
    have hrev := List.asString_inj.mp h
    have hmap := List.reverse_injective hrev
    have hdig : Nat.digits 10 m = Nat.digits 10 n := by
      refine map_digitChar_inj _ _ ?_ ?_ hmap
      · intro x hx; exact Nat.digits_lt_base (by norm_num) hx
      · intro x hx; exact Nat.digits_lt_base (by norm_num) hx
    have h1 := Nat.ofDigits_digits 10 m
    have h2 := Nat.ofDigits_digits 10 n
    rw [← h1, ← h2, hdig]

lemma natToString_injective : Function.Injective (toString : Nat → String) :=
  natRepr_injective

/-! ### The dict comprehension on key-distinct input -/

lemma dictUpdate_notMem (d : List (PyAtom × ℚ)) (k : PyAtom) (v : ℚ)
    (h : k ∉ d.map Prod.fst) : dictUpdate d k v = d ++ [(k, v)] := by
  simp [dictUpdate, h]

lemma foldl_dictUpdate_eq (ps : List (PyAtom × ℚ)) :
    ∀ acc : List (PyAtom × ℚ),
      (∀ p ∈ ps, p.1 ∉ acc.map Prod.fst) → (ps.map Prod.fst).Nodup →
      ps.foldl (fun d p => dictUpdate d p.1 p.2) acc = acc ++ ps := by
  induction ps with
  | nil => intro acc _ _; simp
  | cons p ps ih =>
    intro acc hacc hnd
    rw [List.foldl_cons, dictUpdate_notMem acc p.1 p.2 (hacc p (by simp))]
    rw [ih (acc ++ [(p.1, p.2)]) ?_ ?_]
    · simp
    · intro q hq
      simp only [List.map_append, List.mem_append, List.map_cons, List.map_nil]
      rintro (hmem | hmem)
      · exact hacc q (by simp [hq]) hmem
      · simp only [List.mem_singleton] at hmem
        have : p.1 ∉ ps.map Prod.fst := (List.nodup_cons.mp hnd).1
        exact this (hmem ▸ List.mem_map_of_mem Prod.fst hq)
    · exact (List.nodup_cons.mp hnd).2

lemma dictOfPairs_of_nodup (ps : List (PyAtom × ℚ))
    (h : (ps.map Prod.fst).Nodup) : dictOfPairs ps = ps := by
  unfold dictOfPairs
  rw [foldl_dictUpdate_eq ps [] (by simp) h]
  simp

/-! ### Helper lemmas about the resolved names -/

lemma broadcastNames_nodup (base : String) (n : Nat) :
    ((List.range n).map fun i => PyAtom.aStr (base ++ "_" ++ toString i)).Nodup := by
  refine List.Nodup.map ?_ (List.nodup_range n)
  intro i j hij
  have h1 : base ++ "_" ++ toString i = base ++ "_" ++ toString j := by
    simpa using hij
  have hd := congrArg String.data h1
  simp only [String.data_append, List.append_assoc, List.append_cancel_left_eq] at hd
  exact natToString_injective (String.ext hd)

lemma dictOfPairs_zip_eq (names : List PyAtom) (vs : List ℚ)
    (hlen : names.length = vs.length) (hnd : names.Nodup) :
    dictOfPairs (names.zip vs) = names.zip vs := by
  refine dictOfPairs_of_nodup _ ?_
  rw [List.map_fst_zip names vs (le_of_eq hlen)]
  exact hnd

/-! ### The claims -/

/-- Claim C1: with a single-string metric-name specification and a trial
with more than one objective value, the logged metric mapping pairs the
suffixed names `base_0`, …, `base_{n-1}` with the objective values
positionally, in order, and the call returns `None`. -/
theorem claim_C1 (base : String) (kw : List (String × PyVal)) (s : Study)
    (t : FrozenTrial) (h : 1 < t.values.length) :
    (CometCallback.callMethod ⟨.pyStr base, kw⟩ s t).2.2 = .ok () ∧
    loggedMetrics (CometCallback.callMethod ⟨.pyStr base, kw⟩ s t).2.1 =
      [((List.range t.values.length).map fun i =>
          PyAtom.aStr (base ++ "_" ++ toString i)).zip t.values] := by
  have hres : resolveNames (.pyStr base) t.values =
      .ok ((List.range t.values.length).map fun i =>
        PyAtom.aStr (base ++ "_" ++ toString i)) := by
    simp [resolveNames, h]
  have hdict := dictOfPairs_zip_eq
    ((List.range t.values.length).map fun i =>
      PyAtom.aStr (base ++ "_" ++ toString i)) t.values
    (by simp) (broadcastNames_nodup base t.values.length)
  constructor
  · simp [CometCallback.callMethod, hres]
  · simp [CometCallback.callMethod, hres, loggedMetrics, hdict]

/-- Witness for C1 at a concrete two-objective trial with the default
metric name. -/
theorem claim_C1_witness :
    1 < (FrozenTrial.mk [] [(1 : ℚ), 2] 0 ⟨0⟩ ⟨1⟩).values.length ∧
    ((CometCallback.callMethod ⟨.pyStr "value", []⟩ ⟨"s", []⟩
        (FrozenTrial.mk [] [(1 : ℚ), 2] 0 ⟨0⟩ ⟨1⟩)).2.2 = .ok () ∧
      loggedMetrics (CometCallback.callMethod ⟨.pyStr "value", []⟩ ⟨"s", []⟩
          (FrozenTrial.mk [] [(1 : ℚ), 2] 0 ⟨0⟩ ⟨1⟩)).2.1 =
        [((List.range (FrozenTrial.mk [] [(1 : ℚ), 2] 0 ⟨0⟩ ⟨1⟩).values.length).map
            fun i => PyAtom.aStr ("value" ++ "_" ++ toString i)).zip
          (FrozenTrial.mk [] [(1 : ℚ), 2] 0 ⟨0⟩ ⟨1⟩).values]) :=
  ⟨by decide, claim_C1 "value" [] ⟨"s", []⟩
    (FrozenTrial.mk [] [(1 : ℚ), 2] 0 ⟨0⟩ ⟨1⟩) (by decide)⟩

/-- Claim C5: with a single-string metric-name specification and a trial
with exactly one objective value, the logged metric mapping is the one
pair of the unsuffixed base name and that value. -/
theorem claim_C5 (base : String) (kw : List (String × PyVal)) (s : Study)
    (t : FrozenTrial) (v : ℚ) (h : t.values = [v]) :
    (CometCallback.callMethod ⟨.pyStr base, kw⟩ s t).2.2 = .ok () ∧
    loggedMetrics (CometCallback.callMethod ⟨.pyStr base, kw⟩ s t).2.1 =
      [[(PyAtom.aStr base, v)]] := by
  have hres : resolveNames (.pyStr base) t.values = .ok [.aStr base] := by
    simp [resolveNames, h]
  have hdict : dictOfPairs ([PyAtom.aStr base].zip t.values) =
      [(PyAtom.aStr base, v)] := by
    rw [h]
    exact dictOfPairs_zip_eq [PyAtom.aStr base] [v] (by simp) (by simp)
  constructor
  · simp [CometCallback.callMethod, hres]
  · simp [CometCallback.callMethod, hres, loggedMetrics, hdict]

/-- Witness for C5 at a concrete single-objective trial. -/
theorem claim_C5_witness :
    (FrozenTrial.mk [] [(1 : ℚ)] 0 ⟨0⟩ ⟨1⟩).values = [(1 : ℚ)] ∧
    ((CometCallback.callMethod ⟨.pyStr "value", []⟩ ⟨"s", []⟩
        (FrozenTrial.mk [] [(1 : ℚ)] 0 ⟨0⟩ ⟨1⟩)).2.2 = .ok () ∧
      loggedMetrics (CometCallback.callMethod ⟨.pyStr "value", []⟩ ⟨"s", []⟩
          (FrozenTrial.mk [] [(1 : ℚ)] 0 ⟨0⟩ ⟨1⟩)).2.1 =
        [[(PyAtom.aStr "value", (1 : ℚ))]]) :=
  ⟨rfl, claim_C5 "value" [] ⟨"s", []⟩
    (FrozenTrial.mk [] [(1 : ℚ)] 0 ⟨0⟩ ⟨1⟩) 1 rfl⟩

/-- Claim C9: with a single-string metric-name specification and a trial
with an empty objective-value list, name resolution succeeds with the
unsuffixed base name, the call returns `None`, and `log_metrics` is
called with the empty mapping. -/
theorem claim_C9 (base : String) (kw : List (String × PyVal)) (s : Study)
    (t : FrozenTrial) (h : t.values = []) :
    resolveNames (.pyStr base) t.values = .ok [.aStr base] ∧
    (CometCallback.callMethod ⟨.pyStr base, kw⟩ s t).2.2 = .ok () ∧
    loggedMetrics (CometCallback.callMethod ⟨.pyStr base, kw⟩ s t).2.1 = [[]] := by
  have hres : resolveNames (.pyStr base) t.values = .ok [.aStr base] := by
    simp [resolveNames, h]
  refine ⟨hres, ?_, ?_⟩
  · simp [CometCallback.callMethod, hres]
  · simp only [CometCallback.callMethod, hres]
    simp [loggedMetrics, h, dictOfPairs]

/-- Witness for C9 at a concrete zero-objective trial. -/
theorem claim_C9_witness :
    (FrozenTrial.mk [] [] 0 ⟨0⟩ ⟨1⟩).values = [] ∧
    (resolveNames (.pyStr "value") (FrozenTrial.mk [] [] 0 ⟨0⟩ ⟨1⟩).values =
        .ok [.aStr "value"] ∧
      (CometCallback.callMethod ⟨.pyStr "value", []⟩ ⟨"s", []⟩
          (FrozenTrial.mk [] [] 0 ⟨0⟩ ⟨1⟩)).2.2 = .ok () ∧
      loggedMetrics (CometCallback.callMethod ⟨.pyStr "value", []⟩ ⟨"s", []⟩
          (FrozenTrial.mk [] [] 0 ⟨0⟩ ⟨1⟩)).2.1 = [[]]) :=
  ⟨rfl, claim_C9 "value" [] ⟨"s", []⟩ (FrozenTrial.mk [] [] 0 ⟨0⟩ ⟨1⟩) rfl⟩

/-- Claim C2: with an explicit metric-name sequence whose length differs
from the trial's objective-value count, the call raises a `ValueError`
whose message contains both counts, and no external call is issued
(the trace is empty, so in particular no experiment is created). -/
theorem claim_C2 (xs : List PyAtom) (kw : List (String × PyVal)) (s : Study)
    (t : FrozenTrial) (h : xs.length ≠ t.values.length) :
    CometCallback.callMethod ⟨.pyList xs, kw⟩ s t =
      (⟨.pyList xs, kw⟩, [],
        .error (.valueError (mismatchMsg t.values.length xs.length))) ∧
    ∃ pre mid post, mismatchMsg t.values.length xs.length =
      pre ++ toString t.values.length ++ mid ++ toString xs.length ++ post := by
  have hres : resolveNames (.pyList xs) t.values =
      .error (.valueError (mismatchMsg t.values.length xs.length)) := by
    simp [resolveNames, h]
  refine ⟨by simp [CometCallback.callMethod, hres], ?_⟩
  refine ⟨"Running multi-objective optimization with ",
    " objective values, but ",
    " names specified. Match objective values and names, or use default broadcasting.",
    ?_⟩
  simp [mismatchMsg, String.append_assoc]

/-- Witness for C2 at one explicit name against a two-objective trial. -/
theorem claim_C2_witness :
    ([PyAtom.aStr "a"] : List PyAtom).length ≠
      (FrozenTrial.mk [] [(1 : ℚ), 2] 0 ⟨0⟩ ⟨1⟩).values.length ∧
    (CometCallback.callMethod ⟨.pyList [PyAtom.aStr "a"], []⟩ ⟨"s", []⟩
        (FrozenTrial.mk [] [(1 : ℚ), 2] 0 ⟨0⟩ ⟨1⟩) =
      (⟨.pyList [PyAtom.aStr "a"], []⟩, [],
        .error (.valueError (mismatchMsg
          (FrozenTrial.mk [] [(1 : ℚ), 2] 0 ⟨0⟩ ⟨1⟩).values.length
          ([PyAtom.aStr "a"] : List PyAtom).length))) ∧
      ∃ pre mid post, mismatchMsg
          (FrozenTrial.mk [] [(1 : ℚ), 2] 0 ⟨0⟩ ⟨1⟩).values.length
          ([PyAtom.aStr "a"] : List PyAtom).length =
        pre ++ toString (FrozenTrial.mk [] [(1 : ℚ), 2] 0 ⟨0⟩ ⟨1⟩).values.length
          ++ mid ++ toString ([PyAtom.aStr "a"] : List PyAtom).length ++ post) :=
  ⟨by decide, claim_C2 [PyAtom.aStr "a"] [] ⟨"s", []⟩
    (FrozenTrial.mk [] [(1 : ℚ), 2] 0 ⟨0⟩ ⟨1⟩) (by decide)⟩

/-- Counterexample to claim C3 as stated: a list of integers is neither
a string nor a sequence of strings, yet construction succeeds, because
the source only checks `isinstance(metric_name, Sequence)` and a Python
`list` is a `Sequence` whatever its elements are. -/
theorem claim_C3_counterexample :
    PyVal.isStringOrSeqOfStrings (.pyList [.aInt 0]) = false ∧
    CometCallback.init (.pyList [.aInt 0]) none = .ok ⟨.pyList [.aInt 0], []⟩ :=
  ⟨rfl, rfl⟩

/-- Claim C3 as amended: construction fails with a `TypeError` exactly
when the metric-name argument is not a Python `Sequence` (e.g. an
integer); every sequence is accepted, in particular every string and
every sequence of strings.  Construction issues no external call. -/
theorem claim_C3_amended (m : PyVal) (kw : Option (List (String × PyVal))) :
    ((∃ msg, CometCallback.init m kw = .error (.typeError msg)) ↔
      m.isSequence = false) ∧
    (m.isStringOrSeqOfStrings = true →
      CometCallback.init m kw = .ok ⟨m, orEmptyDict kw⟩) := by
  cases m <;>
    simp [CometCallback.init, PyVal.isSequence, PyVal.isStringOrSeqOfStrings]

/-- Witness for the amended C3 at the default string argument. -/
theorem claim_C3_amended_witness :
    (PyVal.pyStr "value").isStringOrSeqOfStrings = true ∧
    CometCallback.init (.pyStr "value") none =
      .ok ⟨.pyStr "value", orEmptyDict none⟩ :=
  ⟨rfl, (claim_C3_amended (.pyStr "value") none).2 rfl⟩

/-- Counterexample to claim C4 as stated: an explicit name sequence with
a repeated name has the right length, but Python dict construction lets
the later pair overwrite the earlier one, so the produced mapping does
not pair each name with the value at its position. -/
theorem claim_C4_counterexample :
    ([PyAtom.aStr "a", PyAtom.aStr "a"] : List PyAtom).length =
      (FrozenTrial.mk [] [(1 : ℚ), 2] 0 ⟨0⟩ ⟨1⟩).values.length ∧
    loggedMetrics (CometCallback.callMethod
        ⟨.pyList [PyAtom.aStr "a", PyAtom.aStr "a"], []⟩ ⟨"s", []⟩
        (FrozenTrial.mk [] [(1 : ℚ), 2] 0 ⟨0⟩ ⟨1⟩)).2.1 =
      [[(PyAtom.aStr "a", (2 : ℚ))]] ∧
    loggedMetrics (CometCallback.callMethod
        ⟨.pyList [PyAtom.aStr "a", PyAtom.aStr "a"], []⟩ ⟨"s", []⟩
        (FrozenTrial.mk [] [(1 : ℚ), 2] 0 ⟨0⟩ ⟨1⟩)).2.1 ≠
      [([PyAtom.aStr "a", PyAtom.aStr "a"] : List PyAtom).zip
        (FrozenTrial.mk [] [(1 : ℚ), 2] 0 ⟨0⟩ ⟨1⟩).values] := by
  refine ⟨rfl, ?_, ?_⟩ <;>
    simp [CometCallback.callMethod, resolveNames, loggedMetrics,
      dictOfPairs, dictUpdate]

/-- Claim C4 as amended: with an explicit metric-name sequence of the
right length whose names are pairwise distinct, the logged metric
mapping pairs each name with the objective value at the same position,
in order, and the call returns `None` without raising. -/
theorem claim_C4_amended (xs : List PyAtom) (kw : List (String × PyVal))
    (s : Study) (t : FrozenTrial) (hlen : xs.length = t.values.length)
    (hnd : xs.Nodup) :
    (CometCallback.callMethod ⟨.pyList xs, kw⟩ s t).2.2 = .ok () ∧
    loggedMetrics (CometCallback.callMethod ⟨.pyList xs, kw⟩ s t).2.1 =
      [xs.zip t.values] := by
  have hres : resolveNames (.pyList xs) t.values = .ok xs := by
    simp [resolveNames, hlen]
  have hdict := dictOfPairs_zip_eq xs t.values hlen hnd
  constructor
  · simp [CometCallback.callMethod, hres]
  · simp [CometCallback.callMethod, hres, loggedMetrics, hdict]

/-- Witness for the amended C4 at explicit names `["a", "b"]` against a
two-objective trial. -/
theorem claim_C4_amended_witness :
    ([PyAtom.aStr "a", PyAtom.aStr "b"] : List PyAtom).length =
      (FrozenTrial.mk [] [(1 : ℚ), 2] 0 ⟨0⟩ ⟨1⟩).values.length ∧
    ([PyAtom.aStr "a", PyAtom.aStr "b"] : List PyAtom).Nodup ∧
    ((CometCallback.callMethod ⟨.pyList [PyAtom.aStr "a", PyAtom.aStr "b"], []⟩
        ⟨"s", []⟩ (FrozenTrial.mk [] [(1 : ℚ), 2] 0 ⟨0⟩ ⟨1⟩)).2.2 = .ok () ∧
      loggedMetrics (CometCallback.callMethod
          ⟨.pyList [PyAtom.aStr "a", PyAtom.aStr "b"], []⟩ ⟨"s", []⟩
          (FrozenTrial.mk [] [(1 : ℚ), 2] 0 ⟨0⟩ ⟨1⟩)).2.1 =
        [([PyAtom.aStr "a", PyAtom.aStr "b"] : List PyAtom).zip
          (FrozenTrial.mk [] [(1 : ℚ), 2] 0 ⟨0⟩ ⟨1⟩).values]) :=
  ⟨rfl, by decide, claim_C4_amended [PyAtom.aStr "a", PyAtom.aStr "b"] []
    ⟨"s", []⟩ (FrozenTrial.mk [] [(1 : ℚ), 2] 0 ⟨0⟩ ⟨1⟩) rfl (by decide)⟩

/-- Claim C6: whenever name resolution succeeds, the call issues exactly
the experiment construction followed by `log_parameters`, `log_metrics`,
`add_tags` with the one-element study-name list, `log_other` with key
`trial_step` and the trial number, `set_start_time` and `set_end_time`
with the trial's timestamps, in that order, and returns `None`. -/
theorem claim_C6 (cb : CometCallback) (s : Study) (t : FrozenTrial)
    (names : List PyAtom)
    (hres : resolveNames cb.metric_name t.values = .ok names) :
    cb.callMethod s t =
      (cb,
        [.apiExperiment cb.comet_kwargs,
         .log_parameters t.params,
         .log_metrics (dictOfPairs (names.zip t.values)),
         .add_tags [s.study_name],
         .log_other "trial_step" t.number,
         .set_start_time t.datetime_start.timestamp,
         .set_end_time t.datetime_complete.timestamp],
        .ok ()) := by
  simp [CometCallback.callMethod, hres]

/-- Witness for C6 at a concrete single-objective trial. -/
theorem claim_C6_witness :
    resolveNames (CometCallback.mk (.pyStr "value") []).metric_name
        (FrozenTrial.mk [("x", .pyInt 7)] [(1 : ℚ)] 3 ⟨5⟩ ⟨9⟩).values =
      .ok [.aStr "value"] ∧
    CometCallback.callMethod ⟨.pyStr "value", []⟩ ⟨"my_study", [.minimize]⟩
        (FrozenTrial.mk [("x", .pyInt 7)] [(1 : ℚ)] 3 ⟨5⟩ ⟨9⟩) =
      (⟨.pyStr "value", []⟩,
        [.apiExperiment [],
         .log_parameters [("x", .pyInt 7)],
         .log_metrics (dictOfPairs ([PyAtom.aStr "value"].zip [(1 : ℚ)])),
         .add_tags ["my_study"],
         .log_other "trial_step" 3,
         .set_start_time 5,
         .set_end_time 9],
        .ok ()) :=
  ⟨rfl, claim_C6 ⟨.pyStr "value", []⟩ ⟨"my_study", [.minimize]⟩
    (FrozenTrial.mk [("x", .pyInt 7)] [(1 : ℚ)] 3 ⟨5⟩ ⟨9⟩) [.aStr "value"] rfl⟩

/-- Claim C7: every successful invocation opens its trace with a fresh
experiment construction receiving exactly the stored configuration
options, and the trace contains exactly one such construction. -/
theorem claim_C7 (cb : CometCallback) (s : Study) (t : FrozenTrial)
    (h : (cb.callMethod s t).2.2 = .ok ()) :
    (cb.callMethod s t).2.1.head? =
      some (.apiExperiment cb.comet_kwargs) ∧
    (cb.callMethod s t).2.1.countP (fun c => c.isApiExperiment) = 1 := by
  cases hres : resolveNames cb.metric_name t.values with
  | error e => simp [CometCallback.callMethod, hres] at h
  | ok names =>
    constructor <;>
      simp [CometCallback.callMethod, hres, List.countP_cons,
        ApiCall.isApiExperiment]

/-- Witness for C7 at a concrete single-objective trial. -/
theorem claim_C7_witness :
    ((CometCallback.mk (.pyStr "value") [("project", .pyStr "p")]).callMethod
        ⟨"s", []⟩ (FrozenTrial.mk [] [(1 : ℚ)] 0 ⟨0⟩ ⟨1⟩)).2.2 = .ok () ∧
    (((CometCallback.mk (.pyStr "value") [("project", .pyStr "p")]).callMethod
          ⟨"s", []⟩ (FrozenTrial.mk [] [(1 : ℚ)] 0 ⟨0⟩ ⟨1⟩)).2.1.head? =
        some (.apiExperiment [("project", .pyStr "p")]) ∧
      ((CometCallback.mk (.pyStr "value") [("project", .pyStr "p")]).callMethod
          ⟨"s", []⟩ (FrozenTrial.mk [] [(1 : ℚ)] 0 ⟨0⟩ ⟨1⟩)).2.1.countP
        (fun c => c.isApiExperiment) = 1) :=
  ⟨rfl, claim_C7 (CometCallback.mk (.pyStr "value") [("project", .pyStr "p")])
    ⟨"s", []⟩ (FrozenTrial.mk [] [(1 : ℚ)] 0 ⟨0⟩ ⟨1⟩) rfl⟩

/-- Claim C8: the call leaves the stored callback state unchanged, so
invoking it again from the post-state with the same study and trial
issues the identical call sequence (and the identical full result). -/
theorem claim_C8 (cb : CometCallback) (s : Study) (t : FrozenTrial) :
    (cb.callMethod s t).1 = cb ∧
    ((cb.callMethod s t).1.callMethod s t) = cb.callMethod s t := by
  have hstate : (cb.callMethod s t).1 = cb := by
    cases hres : resolveNames cb.metric_name t.values <;>
      simp [CometCallback.callMethod, hres]
  exact ⟨hstate, by rw [hstate]⟩

/-- Claim C10: the result (state, full call trace and return value) does
not depend on the study's optimization directions: two studies differing
only in their directions produce identical invocations.  The direction
names are only read into the dead local `attributes`. -/
theorem claim_C10 (cb : CometCallback) (nm : String)
    (d1 d2 : List StudyDirection) (t : FrozenTrial) :
    cb.callMethod ⟨nm, d1⟩ t = cb.callMethod ⟨nm, d2⟩ t := by
  cases hres : resolveNames cb.metric_name t.values <;>
    simp [CometCallback.callMethod, hres]

end CometSpec
